import Mathlib

/-!
# Verification of the adaptive concurrency / rate-control core

Shallow embedding of the control fabric of the `amazon-scraper-v2`
repository: the coordinator-side quota allocator and global-block FSM
(`server.py`), the worker-side AIMD controller and token bucket
(`adaptive.py`), the sliding-window metrics collector (`metrics.py`),
the tunnel proxy manager (`proxy.py`), the task feeder and the
settings-sync handler (`worker.py`), and the settings PUT endpoint
(`server.py`).

Python floats are modelled as exact rationals (`ℚ`); every arithmetic
expression appearing below is exactly representable at the concrete
inputs used, so the rational model agrees with IEEE evaluation there.
Machine integers are modelled as `ℕ`/`ℤ` (Python ints are unbounded).
Wall-clock/monotonic timestamps are rationals passed explicitly.
-/

namespace Scraper

/-! ## config.py constants (source: src/config.py) -/

def INITIAL_CONCURRENCY : ℕ := 8
def MIN_CONCURRENCY : ℕ := 2
def MAX_CONCURRENCY : ℕ := 50
def TOKEN_BUCKET_RATE : ℚ := 45/10
def ADJUST_INTERVAL_S : ℕ := 10
def TARGET_LATENCY_S : ℚ := 6
def MAX_LATENCY_S : ℚ := 10
def TARGET_SUCCESS_RATE : ℚ := 95/100
def MIN_SUCCESS_RATE : ℚ := 85/100
def BLOCK_RATE_THRESHOLD : ℚ := 5/100
def BANDWIDTH_SOFT_CAP : ℚ := 80/100
def COOLDOWN_AFTER_BLOCK_S : ℕ := 30
def GLOBAL_MAX_CONCURRENCY : ℕ := 50
def GLOBAL_MAX_QPS : ℚ := 45/10
def TASK_QUEUE_SIZE : ℕ := 100
def TASK_PREFETCH_THRESHOLD : ℚ := 1/2
def TUNNEL_ROTATE_INTERVAL : ℚ := 60

/-! ## Rational helpers mirroring Python numeric primitives -/

/-- Python `int(x)` on a nonnegative float: truncation toward zero,
which for `0 ≤ x` is the floor. -/
def pyIntOfRat (q : ℚ) : ℕ := (⌊q⌋).toNat

/-- Python `round(x)` to the nearest integer, ties to even
(Python 3 banker's rounding). -/
def roundHalfEven (q : ℚ) : ℤ :=
  if q - ⌊q⌋ < 1/2 then ⌊q⌋
  else if q - ⌊q⌋ > 1/2 then ⌊q⌋ + 1
  else if ⌊q⌋ % 2 = 0 then ⌊q⌋ else ⌊q⌋ + 1

/-- Python `round(x, 2)`: round to two decimal places, ties to even. -/
def round2 (q : ℚ) : ℚ := (roundHalfEven (100 * q) : ℚ) / 100

/-! ## metrics.py: MetricsCollector._percentile (src/metrics.py lines 145-152)

```python
@staticmethod
def _percentile(sorted_data: list, pct: float) -> float:
    if not sorted_data:
        return 0.0
    idx = int(len(sorted_data) * pct)
    idx = min(idx, len(sorted_data) - 1)
    return sorted_data[idx]
```
-/

def percentile (sorted_data : List ℚ) (pct : ℚ) : ℚ :=
  if sorted_data.isEmpty then 0
  else
    let idx := min (pyIntOfRat (sorted_data.length * pct)) (sorted_data.length - 1)
    sorted_data.getD idx 0

/-- Snapshot's p50 over the raw latency sample: `snapshot` sorts the
latencies (`sorted(r.latency_s for r in records)`) and calls
`_percentile(latencies, 0.50)` (src/metrics.py lines 119-120). -/
def snapshotP50 (latencies : List ℚ) : ℚ :=
  percentile (latencies.mergeSort (· ≤ ·)) (1/2)

/-- The linear-interpolated percentile the spec describes ("linear
interpolation between the two nearest order statistics"): rank
`h = (n-1)·pct`; interpolate between the order statistics at
`⌊h⌋` and `⌊h⌋+1`. Written from the spec's words, for comparison. -/
def linearInterpPercentile (sorted_data : List ℚ) (pct : ℚ) : ℚ :=
  if sorted_data.isEmpty then 0
  else
    let n := sorted_data.length
    let h : ℚ := (n - 1 : ℕ) * pct
    let lo := pyIntOfRat h
    let frac : ℚ := h - lo
    let a := sorted_data.getD lo 0
    let b := sorted_data.getD (min (lo + 1) (n - 1)) 0
    a + frac * (b - a)

/-! ## adaptive.py: TokenBucket (src/adaptive.py lines 232-266)

```python
def __init__(self, rate: float = None, burst: int = None):
    self._rate = rate or config.TOKEN_BUCKET_RATE
    self._burst = burst or max(1, int(self._rate))
    ...
@rate.setter
def rate(self, value: float):
    self._rate = max(0.1, value)
    self._burst = max(1, int(self._rate))
```

`rate or config.TOKEN_BUCKET_RATE` falls back to the config default
exactly when the argument is falsy (`None` or `0`/`0.0`).
-/

/-- Stored rate after `TokenBucket.__init__(rate)`.  `none` models
`rate=None` (the default). -/
def tokenBucketInitRate (rateArg : Option ℚ) : ℚ :=
  match rateArg with
  | none => TOKEN_BUCKET_RATE
  | some r => if r = 0 then TOKEN_BUCKET_RATE else r

/-- Stored rate after the `rate` setter runs with `value`. -/
def tokenBucketSetRate (value : ℚ) : ℚ := max (1/10) value

/-! ## worker.py: feeder pull size (src/worker.py lines 196-205)

```python
queue_size = self._task_queue.qsize()
threshold = int(self._queue_size * self._prefetch_threshold)
if queue_size < threshold:
    fetch_count = min(
        self._controller.current_concurrency * 2,
        self._queue_size - queue_size,
    )
    fetch_count = max(fetch_count, 5)
```
with `self._queue_size = 100` and `self._prefetch_threshold = 0.5`.
-/

def feederThreshold : ℕ := pyIntOfRat (TASK_QUEUE_SIZE * TASK_PREFETCH_THRESHOLD)

/-- Number of tasks requested by the feeder when the queue currently
holds `qsize` tasks and the controller's concurrency is `c`. -/
def feederFetchCount (c qsize : ℕ) : ℕ :=
  max (min (c * 2) (TASK_QUEUE_SIZE - qsize)) 5

/-! ## adaptive.py: AdaptiveController._evaluate (src/adaptive.py lines 132-198)

State read/written by one evaluation tick: the concurrency target
`_concurrency`, the bounds `_min`/`_max`, and `_cooldown_until`.
Inputs of one tick: the metrics snapshot, the monotonic clock value
`now`, and the value drawn by `random.random()` (passed explicitly as
`r`).  The semaphore resize only mirrors the `_concurrency` change and
carries no decision logic of its own.
-/

structure AimdState where
  c : ℕ
  cmin : ℕ
  cmax : ℕ
  cooldownUntil : ℚ
  deriving Repr, DecidableEq

/-- Controller parameters: thresholds from config/settings plus the
mode-derived pair `_block_decrease_factor` (`k`) and
`_cooldown_duration` (`T`) and the coordinator-assigned
`_recovery_jitter`. -/
structure AimdParams where
  targetLatency : ℚ
  maxLatency : ℚ
  targetSuccess : ℚ
  minSuccess : ℚ
  blockThreshold : ℚ
  bwSoftCap : ℚ
  k : ℚ
  T : ℚ
  jitter : ℚ
  deriving Repr, DecidableEq

structure Snapshot where
  total : ℕ
  successRate : ℚ
  blockRate : ℚ
  p50 : ℚ
  bandwidthPct : ℚ
  deriving Repr, DecidableEq

/-- Mode-derived constructor fields (src/adaptive.py lines 71-80):
tunnel mode sets `_cooldown_duration = 60`, `_block_decrease_factor
= 0.75`; TPS mode sets them to `config.COOLDOWN_AFTER_BLOCK_S` (30)
and `0.5`. -/
def modeKT (tunnel : Bool) : ℚ × ℚ :=
  if tunnel then (3/4, 60) else (1/2, (COOLDOWN_AFTER_BLOCK_S : ℚ))

/-- One `_evaluate` tick, translated clause by clause from the source. -/
def evaluate (p : AimdParams) (s : AimdState) (snap : Snapshot) (now r : ℚ) :
    AimdState :=
  if snap.total < 5 then s
  else if snap.blockRate > p.blockThreshold then
    { s with c := max s.cmin (pyIntOfRat (s.c * p.k)), cooldownUntil := now + p.T }
  else if snap.successRate < p.minSuccess ∨ snap.p50 > p.maxLatency then
    { s with c := max s.cmin (pyIntOfRat (s.c * p.k)) }
  else if snap.bandwidthPct > p.bwSoftCap then s
  else if now < s.cooldownUntil then s
  else if snap.successRate ≥ p.targetSuccess ∧ snap.p50 < p.targetLatency then
    if r < 3/10 + 7/10 * p.jitter then { s with c := min s.cmax (s.c + 1) }
    else s
  else s

/-- The claim's priority-ordered decision table, written from the
spec's words with the mode constants `k`/`T` spelled out
(`k = 0.5`, `T = 30` in TPS mode; `k = 0.75`, `T = 60` in tunnel
mode), for comparison with `evaluate`. -/
def evaluateSpecTable (tunnel : Bool) (p : AimdParams) (s : AimdState)
    (snap : Snapshot) (now r : ℚ) : AimdState :=
  let k : ℚ := if tunnel then 3/4 else 1/2
  let T : ℚ := if tunnel then 60 else 30
  if snap.total < 5 then s
  else if snap.blockRate > p.blockThreshold then
    { s with c := max s.cmin (pyIntOfRat (s.c * k)), cooldownUntil := now + T }
  else if snap.successRate < p.minSuccess ∨ snap.p50 > p.maxLatency then
    { s with c := max s.cmin (pyIntOfRat (s.c * k)) }
  else if snap.bandwidthPct > p.bwSoftCap then s
  else if now < s.cooldownUntil then s
  else if snap.successRate ≥ p.targetSuccess ∧ snap.p50 < p.targetLatency then
    if r < 3/10 + 7/10 * p.jitter then { s with c := min s.cmax (s.c + 1) }
    else s
  else s

/-! ## server.py: global block FSM (src/server.py lines 209-242)

`_handle_worker_metrics` stores the report and then runs

```python
if block_rate > threshold and now_mono >= g["global_block_until"]:
    g["global_block_until"] = now_mono + cooldown
    g["block_triggered_by"] = worker_id
    g["block_count"] += 1
    g["recovery_epoch"] += 1
    ...
```

The metrics storage, jitter assignment and the `_allocate_quotas()`
call on trigger do not write `global_block_until`, `block_count` or
`recovery_epoch`, so the FSM fields are modelled on their own.
-/

structure CoordBlockState where
  blockUntil : ℚ
  blockCount : ℕ
  recoveryEpoch : ℕ
  triggeredBy : Option String
  deriving Repr, DecidableEq

def handleWorkerMetricsBlock (threshold cooldown : ℚ)
    (st : CoordBlockState) (workerId : String) (blockRate : ℚ) (now : ℚ) :
    CoordBlockState :=
  if blockRate > threshold ∧ now ≥ st.blockUntil then
    { blockUntil := now + cooldown
      blockCount := st.blockCount + 1
      recoveryEpoch := st.recoveryEpoch + 1
      triggeredBy := some workerId }
  else st

/-! ## worker.py: sync-time global-block application
(src/worker.py lines 761-789)

```python
block_info = s.get("_global_block", {})
if block_info.get("active"):
    epoch = block_info.get("epoch", 0)
    if epoch > self._global_block_epoch:
        self._global_block_epoch = epoch
        new_c = max(self._controller._min, self._controller._concurrency // 2)
        if new_c < self._controller._concurrency:
            ... resize ...
            self._controller._concurrency = new_c
            remaining = block_info.get("remaining_s", 30)
            self._controller._cooldown_until = time.monotonic() + remaining
```
-/

structure WorkerSyncState where
  localEpoch : ℕ
  c : ℕ
  cmin : ℕ
  cooldownUntil : ℚ
  deriving Repr, DecidableEq

structure BlockInfo where
  active : Bool
  epoch : ℕ
  remaining : ℚ
  deriving Repr, DecidableEq

def settingsSyncBlock (st : WorkerSyncState) (b : BlockInfo) (now : ℚ) :
    WorkerSyncState :=
  if b.active ∧ b.epoch > st.localEpoch then
    let newC := max st.cmin (st.c / 2)
    if newC < st.c then
      { st with localEpoch := b.epoch, c := newC,
                cooldownUntil := now + b.remaining }
    else
      { st with localEpoch := b.epoch }
  else st

/-! ## proxy.py: tunnel-mode ProxyManager
(src/proxy.py lines 27-41, 122-138, 181-196, 328-339)

`_channels` is a dict keyed `1..N` whose value iteration order is the
insertion order, modelled as a list.  Timestamps are explicit
rationals.
-/

structure Channel where
  channelId : ℕ
  proxyUrl : String
  blocked : Bool
  blockedAt : ℚ
  requestCount : ℕ
  lastRequestAt : ℚ
  deriving Repr, DecidableEq

/-- `ChannelState.reset_for_rotation` (src/proxy.py lines 37-41). -/
def resetForRotation (ch : Channel) : Channel :=
  { ch with blocked := false, blockedAt := 0, requestCount := 0 }

structure TunnelState where
  channels : List Channel
  rrIndex : ℕ
  rotationAt : ℚ
  allBlockedEventSet : Bool
  deriving Repr, DecidableEq

/-- `get_available_channel` (src/proxy.py lines 122-132): filter the
non-blocked channels that have a bound URL; if none, return `None`;
otherwise advance `_round_robin_index` modulo the number of available
channels and return the channel at the new index.  The function
mutates `_round_robin_index`, so it returns the updated state. -/
def getAvailableChannel (st : TunnelState) : Option Channel × TunnelState :=
  let available := st.channels.filter (fun ch => !ch.blocked && ch.proxyUrl ≠ "")
  if available.isEmpty then (none, st)
  else
    let rr := (st.rrIndex + 1) % available.length
    (available.get? rr, { st with rrIndex := rr })

/-- `all_channels_blocked` (src/proxy.py lines 134-138). -/
def allChannelsBlocked (st : TunnelState) : Bool :=
  st.channels.all (·.blocked)

/-- Outcome of a call in the cooperative-scheduling model: either the
coroutine returns a value, or it suspends awaiting an event.  The
claim under test distinguishes the two. -/
inductive GetProxyOutcome where
  | returned (proxyUrl : Option String) (channelId : Option ℕ)
  | suspended
  deriving Repr, DecidableEq

/-- `_tunnel_get_proxy(channel=None)` (src/proxy.py lines 328-339) on
the automatic-dispatch path used by the worker pool: pick a channel
via `get_available_channel`; on `None` return `(None, None)`；
otherwise bump the channel's `request_count`, stamp
`last_request_at = now` and return its URL and id.  The body contains
no `await`, so every path returns. -/
def tunnelGetProxyAuto (st : TunnelState) (now : ℚ) :
    GetProxyOutcome × TunnelState :=
  match getAvailableChannel st with
  | (none, st') => (.returned none none, st')
  | (some ch, st') =>
      let st'' := { st' with
        channels := st'.channels.map (fun c =>
          if c.channelId = ch.channelId then
            { c with requestCount := c.requestCount + 1, lastRequestAt := now }
          else c) }
      (.returned (some ch.proxyUrl) (some ch.channelId), st'')

/-- `handle_ip_rotation` (src/proxy.py lines 181-196): before the
rotation deadline return `False` and change nothing; at or after it,
reset every channel's per-cycle state, set the all-blocked event and
return `True`. -/
def handleIPRotation (st : TunnelState) (now : ℚ) : Bool × TunnelState :=
  if now < st.rotationAt then (false, st)
  else (true, { st with channels := st.channels.map resetForRotation,
                        allBlockedEventSet := true })

/-! ## server.py: _allocate_quotas (src/server.py lines 121-206)

One allocation pass over the active workers.  Per active worker the
pass consumes the latest reported `success_rate`/`block_rate` (absent
or stale reports score 0.5) and the worker's recovery jitter
(`recovery_jitter.get(wid, 0.5)`); the pass also reads
`min_concurrency`, `global_max_concurrency`, `global_max_qps` and
whether the global cooldown is active (`now_mono <
global_block_until`).  The Python `while` fallback loop
("逐个削减直到不超预算") has no bound, so the pass is embedded with
fuel; `none` models the loop never exiting.
-/

structure WorkerInput where
  /-- `some (success_rate, block_rate)` when a fresh (< 90 s) report
  exists, `none` otherwise. -/
  metrics : Option (ℚ × ℚ)
  /-- `recovery_jitter.get(wid, 0.5)`. -/
  jitter : ℚ
  deriving Repr, DecidableEq

structure AllocSettings where
  minC : ℕ
  globalMaxConc : ℕ
  globalMaxQps : ℚ
  deriving Repr, DecidableEq

structure Quota where
  concurrency : ℕ
  qps : ℚ
  deriving Repr, DecidableEq

/-- Health score (src/server.py lines 143-153): default 0.5 without
fresh metrics, else `clamp(sr * max(0, 1 - br*5), 0.1, 1.0)`. -/
def workerScore (w : WorkerInput) : ℚ :=
  match w.metrics with
  | none => 1/2
  | some (sr, br) => max (1/10) (min 1 (sr * max 0 (1 - br * 5)))

/-- Concurrency budget (src/server.py lines 132-139): halved during a
global cooldown but floored at `n * min_concurrency`. -/
def totalConcBudget (s : AllocSettings) (inCooldown : Bool) (n : ℕ) : ℕ :=
  if inCooldown then max (n * s.minC) (s.globalMaxConc / 2) else s.globalMaxConc

/-- QPS budget (src/server.py lines 133-140): halved during a global
cooldown but floored at `n * 0.5`. -/
def totalQpsBudget (s : AllocSettings) (inCooldown : Bool) (n : ℕ) : ℚ :=
  if inCooldown then max ((n : ℚ) * (1/2)) (s.globalMaxQps / 2) else s.globalMaxQps

/-- Cooldown jitter multiplier (src/server.py lines 165-169). -/
def jitterFactor (inCooldown : Bool) (j : ℚ) : ℚ :=
  if inCooldown then 1/2 + 1/2 * j else 1

/-- `effective_min_c = min(min_c, max(1, int(total_conc / n)))`
(src/server.py line 174). -/
def effectiveMinC (minC tc n : ℕ) : ℕ := min minC (max 1 (tc / n))

/-- Stable descending insertion: `x` goes after every element of equal
or larger key, matching Python's stable `sorted(..., reverse=True)`. -/
def insertDescBy (f : ℕ → ℕ) (x : ℕ) : List ℕ → List ℕ
  | [] => [x]
  | y :: ys => if f x ≤ f y then y :: insertDescBy f x ys else x :: y :: ys

/-- Indices `0..n-1` sorted by current quota value, descending, stable
(`sorted(int_conc, key=lambda w: int_conc[w], reverse=True)`). -/
def sortIdxDesc (l : List ℕ) : List ℕ :=
  (List.range l.length).foldl (fun acc i => insertDescBy (fun j => l.getD j 0) i acc) []

/-- One iteration of the fallback `while` loop's inner `for`
(src/server.py lines 188-191): walk the indices in descending order of
value and decrement each entry still above `effective_min_c` while the
running sum still exceeds the budget. -/
def trimPass (budget effMin : ℕ) (l : List ℕ) : List ℕ :=
  (sortIdxDesc l).foldl
    (fun acc i =>
      if acc.getD i 0 > effMin ∧ acc.sum > budget then
        acc.set i (acc.getD i 0 - 1)
      else acc)
    l

/-- The fallback `while sum(int_conc.values()) > total_conc:` loop,
with fuel.  `none` means the fuel ran out — in particular when a pass
makes no progress, which is exactly the Python loop spinning forever. -/
def greedyTrim (budget effMin : ℕ) : ℕ → List ℕ → Option (List ℕ)
  | 0, _ => none
  | fuel + 1, l => if l.sum ≤ budget then some l
                   else greedyTrim budget effMin fuel (trimPass budget effMin l)

/-- Proportional pre-trim (src/server.py lines 179-186): spread the
excess over the workers above `effective_min_c`, each cut floored and
the result clamped at `effective_min_c`. -/
def propTrim (tc effMin : ℕ) (l : List ℕ) : List ℕ :=
  let excess : ℕ := l.sum - tc
  let totalRed : ℕ := (l.map (fun v => v - effMin)).sum
  if totalRed > 0 then
    l.map (fun v =>
      if v > effMin then
        max effMin (v - pyIntOfRat ((excess : ℚ) * ((v - effMin : ℕ) : ℚ) / (totalRed : ℚ)))
      else v)
  else l

/-- QPS uniform rescale (src/server.py lines 193-196). -/
def scaleQps (tq : ℚ) (raws : List ℚ) : List ℚ :=
  if raws.sum > tq ∧ raws.sum > 0 then raws.map (· * (tq / raws.sum)) else raws

/-- `total_score = sum(scores.values())` (src/server.py line 155). -/
def allocTot (workers : List WorkerInput) : ℚ := (workers.map workerScore).sum

/-- First-round raw concurrency shares (src/server.py lines 158-169). -/
def allocRawConc (s : AllocSettings) (inCooldown : Bool)
    (workers : List WorkerInput) : List ℚ :=
  workers.map (fun w =>
    (totalConcBudget s inCooldown workers.length : ℚ)
      * (workerScore w / allocTot workers) * jitterFactor inCooldown w.jitter)

/-- First-round raw QPS shares (src/server.py lines 158-169). -/
def allocRawQps (s : AllocSettings) (inCooldown : Bool)
    (workers : List WorkerInput) : List ℚ :=
  workers.map (fun w =>
    totalQpsBudget s inCooldown workers.length
      * (workerScore w / allocTot workers) * jitterFactor inCooldown w.jitter)

def allocEffMin (s : AllocSettings) (inCooldown : Bool)
    (workers : List WorkerInput) : ℕ :=
  effectiveMinC s.minC (totalConcBudget s inCooldown workers.length)
    workers.length

/-- `int_conc = {wid: max(effective_min_c, int(v)) ...}`
(src/server.py line 175). -/
def allocIC (s : AllocSettings) (inCooldown : Bool)
    (workers : List WorkerInput) : List ℕ :=
  (allocRawConc s inCooldown workers).map
    (fun v => max (allocEffMin s inCooldown workers) (pyIntOfRat v))

/-- Concurrency values after the proportional trim
(src/server.py lines 178-186). -/
def allocIC1 (s : AllocSettings) (inCooldown : Bool)
    (workers : List WorkerInput) : List ℕ :=
  if (allocIC s inCooldown workers).sum
      > totalConcBudget s inCooldown workers.length then
    propTrim (totalConcBudget s inCooldown workers.length)
      (allocEffMin s inCooldown workers) (allocIC s inCooldown workers)
  else allocIC s inCooldown workers

/-- Full `_allocate_quotas` pass.  Returns the per-worker quotas in
worker order, or `none` when the fallback loop does not terminate
(fuel `sum + 1` passes suffice whenever the Python loop exits, since
every pass that can make progress lowers the sum by at least one). -/
def allocateQuotas (s : AllocSettings) (inCooldown : Bool)
    (workers : List WorkerInput) : Option (List Quota) :=
  if workers.length = 0 then some []
  else
    match greedyTrim (totalConcBudget s inCooldown workers.length)
        (allocEffMin s inCooldown workers)
        ((allocIC1 s inCooldown workers).sum + 1)
        (allocIC1 s inCooldown workers) with
    | none => none
    | some icFinal =>
        some (List.zipWith
          (fun c q => { concurrency := c, qps := round2 (max (1/10) q) })
          icFinal
          (scaleQps (totalQpsBudget s inCooldown workers.length)
            (allocRawQps s inCooldown workers)))

/-! ## server.py: PUT /api/settings (src/server.py lines 792-892)

The handler walks the keys of `_runtime_settings` in dict insertion
order; for each key present in the request body and different from the
current value it converts to the declared type, checks the declared
range, and on success writes the new value while saving the old one.
Per-field or cross-field failure restores every saved old value and
returns a 422; success with at least one write bumps the version.

JSON scalars are modelled by `Val`; `int(...)`/`float(...)` applied to
strings are parameterized (`parseI`/`parseF`) because the precise
Python string-to-number grammar is irrelevant to the claims; the
textual form produced by `str(...)` is likewise modelled only up to
`toString`.
-/

inductive Val where
  | vInt (i : ℤ)
  | vFloat (q : ℚ)
  | vStr (s : String)
  deriving Repr, DecidableEq

def valToRat? : Val → Option ℚ
  | .vInt i => some (i : ℚ)
  | .vFloat q => some q
  | .vStr _ => none

/-- Python `==` between JSON scalars: numeric values compare by value
across `int`/`float`; strings compare with strings only. -/
def pyEq (a b : Val) : Bool :=
  match valToRat? a, valToRat? b with
  | some x, some y => x = y
  | _, _ =>
    match a, b with
    | .vStr s, .vStr t => s = t
    | _, _ => false

/-- Python `int(x)` truncates toward zero. -/
def ratTruncToInt (q : ℚ) : ℤ := if 0 ≤ q then ⌊q⌋ else -⌊-q⌋

inductive PyTy where
  | tyInt
  | tyFloat
  | tyStr
  deriving Repr, DecidableEq

/-- The keys of `_runtime_settings` (src/server.py lines 80-106). -/
inductive SKey where
  | zipCode | maxRetries | proxyApiUrl | tokenBucketRate
  | initialConcurrency | minConcurrency | maxConcurrency
  | sessionRotateEvery | screenshotConcurrency | adjustInterval
  | targetLatency | maxLatency | targetSuccessRate | minSuccessRate
  | blockRateThreshold | cooldownAfterBlock
  | globalMaxConcurrency | globalMaxQps
  deriving Repr, DecidableEq

/-- Dict insertion order of `_runtime_settings`, which is the
iteration order of the validation loop (`for key in _runtime_settings`). -/
def skeyOrder : List SKey :=
  [.zipCode, .maxRetries, .proxyApiUrl, .tokenBucketRate,
   .initialConcurrency, .minConcurrency, .maxConcurrency,
   .sessionRotateEvery, .screenshotConcurrency, .adjustInterval,
   .targetLatency, .maxLatency, .targetSuccessRate, .minSuccessRate,
   .blockRateThreshold, .cooldownAfterBlock,
   .globalMaxConcurrency, .globalMaxQps]

/-- The `_validators` table `(type, min, max)`
(src/server.py lines 799-818). -/
def sValidator : SKey → PyTy × Option ℚ × Option ℚ
  | .zipCode => (.tyStr, none, none)
  | .maxRetries => (.tyInt, some 1, some 10)
  | .proxyApiUrl => (.tyStr, none, none)
  | .tokenBucketRate => (.tyFloat, some (1/2), some 50)
  | .initialConcurrency => (.tyInt, some 1, some 50)
  | .minConcurrency => (.tyInt, some 1, some 20)
  | .maxConcurrency => (.tyInt, some 2, some 100)
  | .sessionRotateEvery => (.tyInt, some 50, some 10000)
  | .screenshotConcurrency => (.tyInt, some 1, some 6)
  | .adjustInterval => (.tyInt, some 3, some 60)
  | .targetLatency => (.tyFloat, some 1, some 30)
  | .maxLatency => (.tyFloat, some 2, some 60)
  | .targetSuccessRate => (.tyFloat, some (1/2), some 1)
  | .minSuccessRate => (.tyFloat, some (3/10), some 1)
  | .blockRateThreshold => (.tyFloat, some (1/100), some (1/2))
  | .cooldownAfterBlock => (.tyInt, some 5, some 120)
  | .globalMaxConcurrency => (.tyInt, some 2, some 500)
  | .globalMaxQps => (.tyFloat, some (1/2), some 100)

def Settings := SKey → Val

def setVal (st : Settings) (k : SKey) (v : Val) : Settings :=
  fun j => if j = k then v else st j

/-- Type conversion (`int(val)` / `float(val)` / `str(val)`,
src/server.py lines 833-842); `none` models the caught
`ValueError`/`TypeError`. -/
def convertVal (parseI : String → Option ℤ) (parseF : String → Option ℚ) :
    PyTy → Val → Option Val
  | .tyInt, .vInt i => some (.vInt i)
  | .tyInt, .vFloat q => some (.vInt (ratTruncToInt q))
  | .tyInt, .vStr s => (parseI s).map .vInt
  | .tyFloat, .vInt i => some (.vFloat (i : ℚ))
  | .tyFloat, .vFloat q => some (.vFloat q)
  | .tyFloat, .vStr s => (parseF s).map .vFloat
  | .tyStr, .vInt i => some (.vStr (toString i))
  | .tyStr, .vFloat q => some (.vStr (toString q))
  | .tyStr, .vStr s => some (.vStr s)

/-- Range check (src/server.py lines 845-850): fails when a declared
bound exists and the converted numeric value falls outside it. -/
def rangeOk (v : Val) (lo hi : Option ℚ) : Bool :=
  let q := (valToRat? v).getD 0
  (match lo with | none => true | some l => decide (¬ q < l)) &&
  (match hi with | none => true | some h => decide (¬ q > h))

/-- Accumulator of the validation loop: current settings, saved old
values in write order (`old_values`), keys that errored (`errors`),
and the `changed` flag. -/
structure UpdAcc where
  st : Settings
  old : List (SKey × Val)
  errs : List SKey
  changed : Bool

/-- One iteration of `for key in _runtime_settings:`
(src/server.py lines 823-854). -/
def processKey (parseI : String → Option ℤ) (parseF : String → Option ℚ)
    (data : SKey → Option Val) (acc : UpdAcc) (k : SKey) : UpdAcc :=
  match data k with
  | none => acc
  | some v =>
    if pyEq v (acc.st k) then acc
    else
      let (ty, lo, hi) := sValidator k
      match convertVal parseI parseF ty v with
      | none => { acc with errs := acc.errs ++ [k] }
      | some v' =>
        if rangeOk v' lo hi then
          { st := setVal acc.st k v'
            old := acc.old ++ [(k, acc.st k)]
            errs := acc.errs
            changed := true }
        else
          { acc with errs := acc.errs ++ [k] }

/-- `for k, v in old_values.items(): _runtime_settings[k] = v`
(src/server.py lines 858-859 and 881-882). -/
def applyOld : List (SKey × Val) → Settings → Settings
  | [], s => s
  | (k, v) :: rest, s => applyOld rest (setVal s k v)

/-- Numeric view used by the cross-field constraints; the handler
compares the stored values directly, which are numeric for every
numeric key of a well-typed settings map. -/
def sRat (st : Settings) (k : SKey) : ℚ := (valToRat? (st k)).getD 0

/-- Cross-field constraint violations (src/server.py lines 867-878). -/
def crossFail (st : Settings) : Bool :=
  decide (sRat st .minConcurrency > sRat st .maxConcurrency) ||
  decide (sRat st .initialConcurrency > sRat st .maxConcurrency) ||
  decide (sRat st .initialConcurrency < sRat st .minConcurrency) ||
  decide (sRat st .targetLatency ≥ sRat st .maxLatency) ||
  decide (sRat st .minSuccessRate > sRat st .targetSuccessRate)

structure UpdateResult where
  settings : Settings
  version : ℕ
  ok : Bool
  changed : Bool

/-- Whether a stored value has the declared Python type of its key.
The handler writes only converted (hence well-typed) values, and the
initial `_runtime_settings` literal is well-typed, so every reachable
settings map satisfies `typedOK`; on such maps the model's cross-field
comparisons coincide with Python's (on an ill-typed map Python's
comparisons would raise instead). -/
def valHasTy : PyTy → Val → Bool
  | .tyInt, .vInt _ => true
  | .tyFloat, .vFloat _ => true
  | .tyStr, .vStr _ => true
  | _, _ => false

def typedOK (st : Settings) : Prop :=
  ∀ k, valHasTy (sValidator k).1 (st k) = true

/-- The initial `_runtime_settings` literal (src/server.py lines
80-106 with the config defaults of src/config.py). -/
def defaultSettings : Settings := fun k =>
  match k with
  | .zipCode => .vStr "10001"
  | .maxRetries => .vInt 3
  | .proxyApiUrl => .vStr "https://tps.kdlapi.com/api/gettps/"
  | .tokenBucketRate => .vFloat (45/10)
  | .initialConcurrency => .vInt 8
  | .minConcurrency => .vInt 2
  | .maxConcurrency => .vInt 50
  | .sessionRotateEvery => .vInt 1000
  | .screenshotConcurrency => .vInt 3
  | .adjustInterval => .vInt 10
  | .targetLatency => .vFloat 6
  | .maxLatency => .vFloat 10
  | .targetSuccessRate => .vFloat (95/100)
  | .minSuccessRate => .vFloat (85/100)
  | .blockRateThreshold => .vFloat (5/100)
  | .cooldownAfterBlock => .vInt 30
  | .globalMaxConcurrency => .vInt 50
  | .globalMaxQps => .vFloat (45/10)

/-- A request that passes every per-field check but violates the
cross-field constraint `min_concurrency ≤ max_concurrency`. -/
def crossBadRequest : SKey → Option Val := fun k =>
  match k with
  | .minConcurrency => some (.vInt 10)
  | .maxConcurrency => some (.vInt 5)
  | _ => none

/-- The whole `update_settings` handler (src/server.py lines 792-892),
for a request body `data` (mapping each settings key to the JSON value
supplied for it, if any). -/
def updateSettings (parseI : String → Option ℤ) (parseF : String → Option ℚ)
    (data : SKey → Option Val) (st0 : Settings) (ver : ℕ) : UpdateResult :=
  let acc := skeyOrder.foldl (processKey parseI parseF data)
    { st := st0, old := [], errs := [], changed := false }
  if acc.errs ≠ [] then
    { settings := applyOld acc.old acc.st, version := ver, ok := false,
      changed := acc.changed }
  else if crossFail acc.st then
    { settings := applyOld acc.old acc.st, version := ver, ok := false,
      changed := acc.changed }
  else if acc.changed then
    { settings := acc.st, version := ver + 1, ok := true, changed := true }
  else
    { settings := acc.st, version := ver, ok := true, changed := false }

/-! ## Theorems -/

theorem roundHalfEven_le (q : ℚ) : (roundHalfEven q : ℚ) ≤ q + 1/2 := by
  unfold roundHalfEven
  have hf := Int.floor_le q
  split_ifs with h1 h2 h3 <;> push_cast <;>
    first
      | linarith
      | linarith [not_lt.mp h1]
      | linarith [not_lt.mp h2]

theorem round2_le (q : ℚ) : round2 q ≤ q + 1/200 := by
  unfold round2
  have h := roundHalfEven_le (100 * q)
  have h2 : (roundHalfEven (100 * q) : ℚ) / 100 ≤ (100 * q + 1/2) / 100 := by
    apply div_le_div_of_nonneg_right h
    norm_num
  calc (roundHalfEven (100 * q) : ℚ) / 100
      ≤ (100 * q + 1/2) / 100 := h2
    _ = q + 1/200 := by ring

theorem pyIntOfRat_eq (q : ℚ) (n : ℕ) (h1 : (n : ℚ) ≤ q) (h2 : q < n + 1) :
    pyIntOfRat q = n := by
  unfold pyIntOfRat
  have : ⌊q⌋ = (n : ℤ) := by
    rw [Int.floor_eq_iff]
    constructor
    · exact_mod_cast h1
    · push_cast
      exact h2
  rw [this]
  simp

/-- C2: On every AIMD evaluation tick: with fewer than 5 samples the
controller state is unchanged; otherwise exactly the first matching
rule of the priority order applies — (1) high block rate → multiply by
`k` (clamped at `C_min`) and set the cooldown `T` ahead; (2) low
success or high p50 → multiply by `k`; (3) bandwidth over soft cap →
hold; (4) cooldown active → hold; (5) healthy → `+1` (clamped at
`C_max`) when the random draw is below `0.3 + 0.7·jitter`, else hold;
(6) otherwise hold — with `k = 0.5`, `T = 30` in TPS mode and
`k = 0.75`, `T = 60` in tunnel mode. -/
theorem aimd_evaluate_follows_priority_table
    (tunnel : Bool) (p : AimdParams) (s : AimdState) (snap : Snapshot)
    (now r : ℚ)
    (hk : p.k = (modeKT tunnel).1) (hT : p.T = (modeKT tunnel).2) :
    (snap.total < 5 → evaluate p s snap now r = s) ∧
    evaluate p s snap now r = evaluateSpecTable tunnel p s snap now r := by
  constructor
  · intro h
    unfold evaluate
    simp [h]
  · cases tunnel
    · have hk2 : p.k = 1/2 := by
        rw [hk]
        norm_num [modeKT]
      have hT2 : p.T = 30 := by
        rw [hT]
        norm_num [modeKT, COOLDOWN_AFTER_BLOCK_S]
      simp [evaluate, evaluateSpecTable, hk2, hT2]
    · have hk2 : p.k = 3/4 := by
        rw [hk]
        norm_num [modeKT]
      have hT2 : p.T = 60 := by
        rw [hT]
        norm_num [modeKT]
      simp [evaluate, evaluateSpecTable, hk2, hT2]

theorem aimd_evaluate_follows_priority_table_witness :
    let p : AimdParams :=
      { targetLatency := 6, maxLatency := 10, targetSuccess := 95/100,
        minSuccess := 85/100, blockThreshold := 5/100, bwSoftCap := 80/100,
        k := 1/2, T := 30, jitter := 1/2 }
    let s : AimdState := { c := 8, cmin := 2, cmax := 50, cooldownUntil := 0 }
    let snap : Snapshot :=
      { total := 20, successRate := 9/10, blockRate := 1/10, p50 := 2,
        bandwidthPct := 0 }
    (snap.total < 5 → evaluate p s snap 100 0 = s) ∧
    evaluate p s snap 100 0 = evaluateSpecTable false p s snap 100 0 :=
  aimd_evaluate_follows_priority_table false _ _ _ 100 0 (by norm_num [modeKT])
    (by norm_num [modeKT, COOLDOWN_AFTER_BLOCK_S])

/-- C3: a metrics report can trigger the global-block state only when
`now ≥ block_until`; if a report triggers at `t1`, any further report
arriving before `t1 + cooldown` leaves the whole block state — epoch
and deadline included — unchanged, so one cooldown sees at most one
epoch increment. -/
theorem globalBlock_single_increment_per_cooldown
    (threshold cooldown : ℚ) (st : CoordBlockState) (w1 w2 : String)
    (br1 br2 t1 t2 : ℚ)
    (h1 : br1 > threshold) (h2 : t1 ≥ st.blockUntil) (h3 : t2 < t1 + cooldown) :
    (handleWorkerMetricsBlock threshold cooldown st w1 br1 t1).recoveryEpoch
        = st.recoveryEpoch + 1 ∧
    (handleWorkerMetricsBlock threshold cooldown st w1 br1 t1).blockUntil
        = t1 + cooldown ∧
    handleWorkerMetricsBlock threshold cooldown
        (handleWorkerMetricsBlock threshold cooldown st w1 br1 t1) w2 br2 t2
      = handleWorkerMetricsBlock threshold cooldown st w1 br1 t1 := by
  unfold handleWorkerMetricsBlock
  simp only [h1, h2, and_true, true_and, if_pos (And.intro h1 h2)]
  refine ⟨rfl, rfl, ?_⟩
  rw [if_neg]
  intro hcon
  exact absurd hcon.2 (by simpa using not_le.mpr h3)

theorem globalBlock_single_increment_per_cooldown_witness :
    ((1:ℚ)/10 > 5/100) ∧ ((50:ℚ) ≥ 0) ∧ ((60:ℚ) < 50 + 30) ∧
    ((handleWorkerMetricsBlock (5/100) 30
        { blockUntil := 0, blockCount := 0, recoveryEpoch := 0,
          triggeredBy := none } "w1" (1/10) 50).recoveryEpoch = 0 + 1 ∧
     (handleWorkerMetricsBlock (5/100) 30
        { blockUntil := 0, blockCount := 0, recoveryEpoch := 0,
          triggeredBy := none } "w1" (1/10) 50).blockUntil = 50 + 30 ∧
     handleWorkerMetricsBlock (5/100) 30
        (handleWorkerMetricsBlock (5/100) 30
          { blockUntil := 0, blockCount := 0, recoveryEpoch := 0,
            triggeredBy := none } "w1" (1/10) 50) "w2" (1/10) 60
      = handleWorkerMetricsBlock (5/100) 30
          { blockUntil := 0, blockCount := 0, recoveryEpoch := 0,
            triggeredBy := none } "w1" (1/10) 50) :=
  ⟨by norm_num, by norm_num, by norm_num,
   globalBlock_single_increment_per_cooldown (5/100) 30 _ "w1" "w2" (1/10) (1/10)
     50 60 (by norm_num) (by norm_num) (by norm_num)⟩

/-- C4 counterexample: for the sorted two-element latency sample
`[1, 3]` the window reports p50 = 3 (the upper order statistic picked
by `sorted_data[int(n * pct)]`), while the linear-interpolated median
is 2 — so the reported p50 is not the linear-interpolated percentile
and, for even `n`, not the mean of the two middle values. -/
theorem snapshotP50_not_linear_interpolated :
    snapshotP50 [1, 3] = 3 ∧
    linearInterpPercentile [1, 3] (1/2) = 2 ∧
    (3 : ℚ) ≠ 2 := by
  have h1 : pyIntOfRat 1 = 1 := by
    unfold pyIntOfRat
    norm_num
  have h0 : pyIntOfRat (1/2) = 0 := by
    unfold pyIntOfRat
    rw [Int.floor_eq_zero_iff.mpr]
    · rfl
    · rw [Set.mem_Ico]
      norm_num
  refine ⟨?_, ?_, by norm_num⟩
  · unfold snapshotP50
    rw [List.mergeSort_eq_self (by norm_num [List.sorted_cons])]
    simp [percentile, h1]
  · simp [-one_div, linearInterpPercentile]
    rw [h0]
    norm_num

/-- C4 amended: for a non-empty sorted sample of even size `2m` the
window's p50 is the upper of the two middle values — the order
statistic at (0-based) index `m` — i.e. the window uses index
selection `sorted_data[min(int(n·pct), n-1)]`, not linear
interpolation. -/
theorem snapshotP50_even_upper_middle (l : List ℚ) (m : ℕ)
    (hm : 1 ≤ m) (hlen : l.length = 2 * m)
    (hsort : List.Sorted (· ≤ ·) l) :
    snapshotP50 l = l.getD m 0 := by
  unfold snapshotP50 percentile
  rw [List.mergeSort_eq_self hsort]
  have hne : l.isEmpty = false := by
    cases l with
    | nil => simp at hlen; omega
    | cons a t => rfl
  rw [if_neg (by simp [hne])]
  have hcast : ((l.length : ℚ)) * (1/2) = (m : ℚ) := by
    rw [hlen]
    push_cast
    ring
  have hidx : pyIntOfRat (l.length * (1/2)) = m := by
    unfold pyIntOfRat
    rw [hcast, Int.floor_natCast]
    simp
  rw [hidx, hlen]
  have hmin : min m (2 * m - 1) = m := by omega
  rw [hmin]

theorem snapshotP50_even_upper_middle_witness :
    (1 ≤ 2) ∧ ([(1:ℚ), 2, 5, 9].length = 2 * 2) ∧
    List.Sorted (· ≤ ·) [(1:ℚ), 2, 5, 9] ∧
    snapshotP50 [(1:ℚ), 2, 5, 9] = [(1:ℚ), 2, 5, 9].getD 2 0 :=
  ⟨by norm_num, by rfl, by norm_num [List.sorted_cons],
   snapshotP50_even_upper_middle [1, 2, 5, 9] 2 (by norm_num) (by rfl)
     (by norm_num [List.sorted_cons])⟩

/-- C7 counterexample: a sync response with an active global block and
a strictly newer epoch reaches a worker whose concurrency already sits
at `C_min` (`C = C_min = 2`): the code updates the local epoch but —
because `max(C_min, C // 2) < C` fails — does *not* set the local
cooldown deadline `remaining_s` ahead, contradicting the claim that
every such response sets the cooldown. -/
theorem settingsSyncBlock_cooldown_not_set_at_min :
    settingsSyncBlock
        { localEpoch := 0, c := 2, cmin := 2, cooldownUntil := 0 }
        { active := true, epoch := 1, remaining := 30 } 1000
      = { localEpoch := 1, c := 2, cmin := 2, cooldownUntil := 0 } ∧
    (0 : ℚ) ≠ 1000 + 30 := by
  constructor
  · unfold settingsSyncBlock
    norm_num
  · norm_num

/-- C7 amended: for a sync response whose block descriptor is active
and carries an epoch strictly above the worker's local epoch, the
worker adopts the new epoch; it halves `C` (floor division, clamped to
`C_min`) and sets the local cooldown `remaining_s` ahead exactly when
that clamped halving strictly decreases `C`, and otherwise leaves `C`
and the cooldown untouched.  A later response carrying the same or an
older epoch (active or not) changes nothing, so each epoch is acted on
at most once and the local epoch never decreases. -/
theorem settingsSyncBlock_characterisation
    (st : WorkerSyncState) (b : BlockInfo) (now : ℚ)
    (ha : b.active = true) (he : st.localEpoch < b.epoch) :
    (settingsSyncBlock st b now).localEpoch = b.epoch ∧
    st.localEpoch ≤ (settingsSyncBlock st b now).localEpoch ∧
    (max st.cmin (st.c / 2) < st.c →
        (settingsSyncBlock st b now).c = max st.cmin (st.c / 2) ∧
        (settingsSyncBlock st b now).cooldownUntil = now + b.remaining) ∧
    (¬ max st.cmin (st.c / 2) < st.c →
        (settingsSyncBlock st b now).c = st.c ∧
        (settingsSyncBlock st b now).cooldownUntil = st.cooldownUntil) ∧
    (∀ (b' : BlockInfo) (now' : ℚ), b'.epoch ≤ b.epoch →
        settingsSyncBlock (settingsSyncBlock st b now) b' now'
          = settingsSyncBlock st b now) := by
  have hcond : b.active = true ∧ st.localEpoch < b.epoch := ⟨ha, he⟩
  unfold settingsSyncBlock
  rw [if_pos (by simpa using hcond)]
  by_cases hc : max st.cmin (st.c / 2) < st.c
  · rw [if_pos hc]
    refine ⟨rfl, by simpa using le_of_lt he, fun _ => ⟨rfl, rfl⟩,
      fun hcon => absurd hc hcon, ?_⟩
    intro b' now' hep
    rw [if_neg]
    simp only [not_and]
    intro _
    simpa using not_lt.mpr hep
  · rw [if_neg hc]
    refine ⟨rfl, by simpa using le_of_lt he, fun hcon => absurd hcon hc,
      fun _ => ⟨rfl, rfl⟩, ?_⟩
    intro b' now' hep
    rw [if_neg]
    simp only [not_and]
    intro _
    simpa using not_lt.mpr hep

theorem settingsSyncBlock_characterisation_witness :
    (BlockInfo.active { active := true, epoch := 3, remaining := 45 } = true) ∧
    (WorkerSyncState.localEpoch
        { localEpoch := 1, c := 8, cmin := 2, cooldownUntil := 0 } < 3) ∧
    (settingsSyncBlock
        { localEpoch := 1, c := 8, cmin := 2, cooldownUntil := 0 }
        { active := true, epoch := 3, remaining := 45 } 500).localEpoch = 3 :=
  ⟨rfl, by norm_num,
   (settingsSyncBlock_characterisation
      { localEpoch := 1, c := 8, cmin := 2, cooldownUntil := 0 }
      { active := true, epoch := 3, remaining := 45 } 500 rfl
      (by norm_num)).1⟩

theorem feederThreshold_eq : feederThreshold = 50 := by
  unfold feederThreshold TASK_QUEUE_SIZE TASK_PREFETCH_THRESHOLD pyIntOfRat
  rw [show ((100 : ℕ) : ℚ) * (1/2) = ((50 : ℕ) : ℚ) by push_cast; ring,
    Int.floor_natCast]
  rfl

/-- C8: whenever the queue fill level is below
`prefetch_threshold · queue_size` (50 of 100), the feeder's request
size equals `max(5, 2·C)` capped by the remaining queue capacity, and
in particular never exceeds `queue_size` minus the queued count. -/
theorem feederFetchCount_bounded (c q : ℕ) (h : q < feederThreshold) :
    feederFetchCount c q = min (max 5 (c * 2)) (TASK_QUEUE_SIZE - q) ∧
    feederFetchCount c q ≤ TASK_QUEUE_SIZE - q := by
  have hq : q < 50 := by
    have h50 := feederThreshold_eq
    omega
  have hcap : 50 ≤ TASK_QUEUE_SIZE - q := by
    unfold TASK_QUEUE_SIZE
    omega
  unfold feederFetchCount
  unfold TASK_QUEUE_SIZE at hcap ⊢
  omega

theorem feederFetchCount_bounded_witness :
    (30 < feederThreshold) ∧
    feederFetchCount 8 30 = min (max 5 (8 * 2)) (TASK_QUEUE_SIZE - 30) ∧
    feederFetchCount 8 30 ≤ TASK_QUEUE_SIZE - 30 :=
  ⟨by rw [feederThreshold_eq]; norm_num,
   (feederFetchCount_bounded 8 30 (by rw [feederThreshold_eq]; norm_num)).1,
   (feederFetchCount_bounded 8 30 (by rw [feederThreshold_eq]; norm_num)).2⟩

/-- C9 counterexample: `TokenBucket.__init__` stores a non-falsy
constructor rate unclamped: constructing with `rate = 0.05` stores
`0.05`, which is below the 0.1 floor the claim asserts for every
stored rate value. -/
theorem tokenBucketInit_not_clamped :
    tokenBucketInitRate (some (1/20)) = 1/20 ∧
    ¬ ((1 : ℚ)/10 ≤ tokenBucketInitRate (some (1/20))) := by
  have h : tokenBucketInitRate (some (1/20)) = 1/20 := by
    unfold tokenBucketInitRate
    norm_num
  refine ⟨h, ?_⟩
  rw [h]
  norm_num

/-- C9 amended: only the runtime `rate` setter clamps: every value
assigned through it is stored as `max(0.1, value)`, hence at least 0.1
and strictly positive, so the sleep computation `(1 − tokens)/rate`
after any setter assignment divides by a positive number.  The
constructor stores a non-falsy argument unclamped (falsy arguments
fall back to the config default 4.5). -/
theorem tokenBucketSetRate_floor (v : ℚ) :
    tokenBucketSetRate v = max (1/10) v ∧
    1/10 ≤ tokenBucketSetRate v ∧
    0 < tokenBucketSetRate v ∧
    tokenBucketInitRate none = 45/10 := by
  refine ⟨rfl, le_max_left _ _, ?_, rfl⟩
  calc (0 : ℚ) < 1/10 := by norm_num
    _ ≤ tokenBucketSetRate v := le_max_left _ _

/-- C6 counterexample: in a tunnel state whose three channels are all
marked blocked, `_tunnel_get_proxy` does not suspend: it returns
`(None, None)` immediately, contradicting the claim that the call
blocks the caller until a rotation clears the flags.  (The waiting is
done by the worker's processing loop via `wait_for_rotation`, not by
`GetProxy`.) -/
theorem tunnelGetProxy_allBlocked_no_suspension :
    allChannelsBlocked
      { channels :=
          [{ channelId := 1, proxyUrl := "http://p1", blocked := true,
             blockedAt := 5, requestCount := 2, lastRequestAt := 4 },
           { channelId := 2, proxyUrl := "http://p2", blocked := true,
             blockedAt := 6, requestCount := 1, lastRequestAt := 6 },
           { channelId := 3, proxyUrl := "http://p3", blocked := true,
             blockedAt := 7, requestCount := 3, lastRequestAt := 7 }],
        rrIndex := 0, rotationAt := 60, allBlockedEventSet := false } = true ∧
    (tunnelGetProxyAuto
      { channels :=
          [{ channelId := 1, proxyUrl := "http://p1", blocked := true,
             blockedAt := 5, requestCount := 2, lastRequestAt := 4 },
           { channelId := 2, proxyUrl := "http://p2", blocked := true,
             blockedAt := 6, requestCount := 1, lastRequestAt := 6 },
           { channelId := 3, proxyUrl := "http://p3", blocked := true,
             blockedAt := 7, requestCount := 3, lastRequestAt := 7 }],
        rrIndex := 0, rotationAt := 60, allBlockedEventSet := false } 10).1
      = .returned none none ∧
    GetProxyOutcome.returned none none ≠ .suspended := by
  refine ⟨rfl, rfl, ?_⟩
  intro hcon
  cases hcon

/-- C6 amended: when every channel is blocked, `_tunnel_get_proxy`
returns `(None, None)` at once and leaves the manager state unchanged
(the caller — the worker task loop — then sleeps until the rotation
deadline and retries); once `handle_ip_rotation` runs at or after the
deadline it reports `True`, clears every channel's blocked flag, and
round-robin dispatch resumes: `get_available_channel` again yields a
channel for any channel with a bound URL. -/
theorem tunnelGetProxy_allBlocked_behaviour (st : TunnelState) (now : ℚ)
    (h : allChannelsBlocked st = true) :
    tunnelGetProxyAuto st now = (.returned none none, st) ∧
    (∀ t, st.rotationAt ≤ t →
        (handleIPRotation st t).1 = true ∧
        (∀ ch ∈ (handleIPRotation st t).2.channels, ch.blocked = false) ∧
        (∀ ch ∈ st.channels, ch.proxyUrl ≠ "" →
            ((getAvailableChannel (handleIPRotation st t).2).1).isSome = true)) := by
  have hfil : st.channels.filter
      (fun ch => !ch.blocked && ch.proxyUrl ≠ "") = [] := by
    rw [List.filter_eq_nil_iff]
    intro ch hch
    have hb : ch.blocked = true := by
      have := List.all_eq_true.mp h ch hch
      simpa using this
    simp [hb]
  have hgac : getAvailableChannel st = (none, st) := by
    unfold getAvailableChannel
    simp only [hfil]
    rfl
  constructor
  · unfold tunnelGetProxyAuto
    rw [hgac]
  · intro t ht
    have hrot : handleIPRotation st t
        = (true, { st with channels := st.channels.map resetForRotation,
                            allBlockedEventSet := true }) := by
      unfold handleIPRotation
      rw [if_neg (not_lt.mpr ht)]
    refine ⟨by rw [hrot], ?_, ?_⟩
    · intro ch hch
      rw [hrot] at hch
      simp only [List.mem_map] at hch
      obtain ⟨a, _, rfl⟩ := hch
      rfl
    · intro ch hch hurl
      rw [hrot]
      unfold getAvailableChannel
      have hmem : resetForRotation ch ∈
          (st.channels.map resetForRotation).filter
            (fun c => !c.blocked && c.proxyUrl ≠ "") := by
        rw [List.mem_filter]
        refine ⟨List.mem_map_of_mem _ hch, ?_⟩
        simp [resetForRotation, hurl]
      have hne : ((st.channels.map resetForRotation).filter
          (fun c => !c.blocked && c.proxyUrl ≠ "")) ≠ [] :=
        List.ne_nil_of_mem hmem
      have hlen : 0 < ((st.channels.map resetForRotation).filter
          (fun c => !c.blocked && c.proxyUrl ≠ "")).length :=
        List.length_pos.mpr hne
      simp only [List.isEmpty_iff, hne, if_false]
      have hmod : (st.rrIndex + 1) %
          ((st.channels.map resetForRotation).filter
            (fun c => !c.blocked && c.proxyUrl ≠ "")).length <
          ((st.channels.map resetForRotation).filter
            (fun c => !c.blocked && c.proxyUrl ≠ "")).length :=
        Nat.mod_lt _ hlen
      rw [List.get?_eq_getElem?, List.getElem?_eq_getElem hmod]
      rfl

theorem tunnelGetProxy_allBlocked_behaviour_witness :
    allChannelsBlocked
      { channels :=
          [{ channelId := 1, proxyUrl := "http://p1", blocked := true,
             blockedAt := 5, requestCount := 2, lastRequestAt := 4 }],
        rrIndex := 0, rotationAt := 60, allBlockedEventSet := false } = true ∧
    tunnelGetProxyAuto
      { channels :=
          [{ channelId := 1, proxyUrl := "http://p1", blocked := true,
             blockedAt := 5, requestCount := 2, lastRequestAt := 4 }],
        rrIndex := 0, rotationAt := 60, allBlockedEventSet := false } 10
      = (.returned none none,
         { channels :=
             [{ channelId := 1, proxyUrl := "http://p1", blocked := true,
                blockedAt := 5, requestCount := 2, lastRequestAt := 4 }],
           rrIndex := 0, rotationAt := 60, allBlockedEventSet := false }) :=
  ⟨rfl,
   (tunnelGetProxy_allBlocked_behaviour
      { channels :=
          [{ channelId := 1, proxyUrl := "http://p1", blocked := true,
             blockedAt := 5, requestCount := 2, lastRequestAt := 4 }],
        rrIndex := 0, rotationAt := 60, allBlockedEventSet := false } 10
      rfl).1⟩

theorem workerScore_nonneg (w : WorkerInput) : 0 ≤ workerScore w := by
  unfold workerScore
  match w.metrics with
  | none => norm_num
  | some (sr, br) =>
      calc (0 : ℚ) ≤ 1/10 := by norm_num
        _ ≤ max (1/10) (min 1 (sr * max 0 (1 - br * 5))) := le_max_left _ _

theorem totalQpsBudget_nonneg (s : AllocSettings) (inCooldown : Bool) (n : ℕ)
    (h : 0 ≤ s.globalMaxQps) : 0 ≤ totalQpsBudget s inCooldown n := by
  unfold totalQpsBudget
  split
  · calc (0 : ℚ) ≤ (n : ℚ) * (1/2) := by positivity
      _ ≤ max ((n : ℚ) * (1/2)) (s.globalMaxQps / 2) := le_max_left _ _
  · exact h

theorem jitterFactor_nonneg (inCooldown : Bool) (j : ℚ) (h : 0 ≤ j) :
    0 ≤ jitterFactor inCooldown j := by
  unfold jitterFactor
  split <;> [linarith; norm_num]

theorem allocTot_nonneg (workers : List WorkerInput) : 0 ≤ allocTot workers := by
  unfold allocTot
  apply List.sum_nonneg
  intro x hx
  obtain ⟨w, _, rfl⟩ := List.mem_map.mp hx
  exact workerScore_nonneg w

theorem allocRawQps_nonneg (s : AllocSettings) (inCooldown : Bool)
    (workers : List WorkerInput) (hgq : 0 ≤ s.globalMaxQps)
    (hj : ∀ w ∈ workers, 0 ≤ w.jitter) :
    ∀ q ∈ allocRawQps s inCooldown workers, 0 ≤ q := by
  intro q hq
  obtain ⟨w, hw, rfl⟩ := List.mem_map.mp hq
  have h1 := totalQpsBudget_nonneg s inCooldown workers.length hgq
  have h2 := workerScore_nonneg w
  have h3 := allocTot_nonneg workers
  have h4 := jitterFactor_nonneg inCooldown w.jitter (hj w hw)
  have h5 : 0 ≤ workerScore w / allocTot workers := div_nonneg h2 h3
  exact mul_nonneg (mul_nonneg h1 h5) h4

theorem scaleQps_nonneg (tq : ℚ) (raws : List ℚ) (htq : 0 ≤ tq)
    (h : ∀ q ∈ raws, 0 ≤ q) : ∀ q ∈ scaleQps tq raws, 0 ≤ q := by
  unfold scaleQps
  split
  · intro q hq
    obtain ⟨x, hx, rfl⟩ := List.mem_map.mp hq
    have hs : (0:ℚ) < raws.sum := by
      rename_i hc
      exact hc.2
    exact mul_nonneg (h x hx) (div_nonneg htq (le_of_lt hs))
  · exact h

theorem sum_map_mul_right (l : List ℚ) (b : ℚ) :
    (l.map (· * b)).sum = l.sum * b := by
  induction l with
  | nil => simp
  | cons a t ih => simp [ih, add_mul]

theorem zipWith_replicate_eq {α β γ : Type} (f : α → β → γ) (n : ℕ) (a : α) (b : β) :
    List.zipWith f (List.replicate n a) (List.replicate n b)
      = List.replicate n (f a b) := by
  induction n with
  | zero => rfl
  | succ k ih => simp [List.replicate_succ, ih]

theorem scaleQps_sum_le (tq : ℚ) (raws : List ℚ) (htq : 0 ≤ tq)
    (h : ∀ q ∈ raws, 0 ≤ q) : (scaleQps tq raws).sum ≤ tq := by
  unfold scaleQps
  split
  · rename_i hc
    rw [sum_map_mul_right, mul_comm, div_mul_cancel₀ tq (ne_of_gt hc.2)]
  · rename_i hc
    rw [not_and_or] at hc
    rcases hc with hc | hc
    · exact le_of_not_lt hc
    · have h0 : 0 ≤ raws.sum := List.sum_nonneg h
      have : raws.sum = 0 := le_antisymm (le_of_not_lt hc) h0
      rw [this]
      exact htq

theorem scaleQps_length (tq : ℚ) (raws : List ℚ) :
    (scaleQps tq raws).length = raws.length := by
  unfold scaleQps
  split <;> simp

theorem greedyTrim_sum_le (budget effMin : ℕ) :
    ∀ (fuel : ℕ) (l r : List ℕ),
      greedyTrim budget effMin fuel l = some r → r.sum ≤ budget := by
  intro fuel
  induction fuel with
  | zero =>
      intro l r h
      simp [greedyTrim] at h
  | succ n ih =>
      intro l r h
      unfold greedyTrim at h
      by_cases hs : l.sum ≤ budget
      · rw [if_pos hs] at h
        obtain rfl : l = r := by simpa using h
        exact hs
      · rw [if_neg hs] at h
        exact ih _ _ h

theorem sum_zip_conc_le (cs : List ℕ) (qs : List ℚ) :
    ((List.zipWith
        (fun c q => ({ concurrency := c, qps := round2 (max (1/10) q) } : Quota))
        cs qs).map Quota.concurrency).sum ≤ cs.sum := by
  induction cs generalizing qs with
  | nil => simp
  | cons c cs ih =>
      cases qs with
      | nil => simp
      | cons q qs =>
          simp only [List.zipWith_cons_cons, List.map_cons, List.sum_cons]
          exact Nat.add_le_add_left (ih qs) c

theorem sum_zip_qps_le (cs : List ℕ) (qs : List ℚ) (h : ∀ q ∈ qs, 0 ≤ q) :
    ((List.zipWith
        (fun c q => ({ concurrency := c, qps := round2 (max (1/10) q) } : Quota))
        cs qs).map Quota.qps).sum ≤ qs.sum + (21/200) * qs.length := by
  induction cs generalizing qs with
  | nil =>
      simp only [List.zipWith_nil_left, List.map_nil, List.sum_nil]
      have h0 : 0 ≤ qs.sum := List.sum_nonneg h
      have h1 : (0:ℚ) ≤ (21/200) * qs.length := by positivity
      linarith
  | cons c cs ih =>
      cases qs with
      | nil => simp
      | cons q qs =>
          have hq : 0 ≤ q := h q (List.mem_cons_self _ _)
          have hrest : ∀ x ∈ qs, 0 ≤ x := fun x hx => h x (List.mem_cons_of_mem _ hx)
          have hterm : round2 (max (1/10) q) ≤ q + 21/200 := by
            have h1 : max (1/10 : ℚ) q ≤ q + 1/10 := max_le (by linarith) (by linarith)
            have h2 := round2_le (max (1/10) q)
            linarith
          have hih := ih qs hrest
          simp only [List.zipWith_cons_cons, List.map_cons, List.sum_cons,
            List.length_cons]
          push_cast
          linarith

/-- C1 counterexample: 16 active workers without fresh metrics, default
settings except `global_max_qps = 0.5` (the smallest valid value):
the pass terminates, every worker receives qps
`round(max(0.1, 0.5/16), 2) = 0.1`, and the qps total 1.6 exceeds the
budget plus one unit of rounding (0.5 + 1 = 1.5) — the per-worker 0.1
floor is applied after the budget-preserving rescale, so the claimed
bound fails. -/
theorem allocateQuotas_qps_floor_breaks_budget :
    allocateQuotas { minC := 2, globalMaxConc := 50, globalMaxQps := 1/2 }
        false (List.replicate 16 { metrics := none, jitter := 1/2 })
      = some (List.replicate 16 { concurrency := 3, qps := 1/10 }) ∧
    ((List.replicate 16 ({ concurrency := 3, qps := 1/10 } : Quota)).map
        Quota.qps).sum = 8/5 ∧
    ¬ ((8/5 : ℚ) ≤ 1/2 + 1) := by
  have h_tot : allocTot (List.replicate 16
      ({ metrics := none, jitter := 1/2 } : WorkerInput)) = 8 := by
    unfold allocTot
    rw [List.map_replicate, List.sum_replicate]
    norm_num [workerScore, nsmul_eq_mul]
  have h_rawC : allocRawConc { minC := 2, globalMaxConc := 50, globalMaxQps := 1/2 }
      false (List.replicate 16 ({ metrics := none, jitter := 1/2 } : WorkerInput))
      = List.replicate 16 (25/8) := by
    unfold allocRawConc
    rw [List.map_replicate]
    congr 1
    rw [h_tot]
    norm_num [workerScore, jitterFactor, totalConcBudget]
  have h_rawQ : allocRawQps { minC := 2, globalMaxConc := 50, globalMaxQps := 1/2 }
      false (List.replicate 16 ({ metrics := none, jitter := 1/2 } : WorkerInput))
      = List.replicate 16 (1/32) := by
    unfold allocRawQps
    rw [List.map_replicate]
    congr 1
    rw [h_tot]
    norm_num [workerScore, jitterFactor, totalQpsBudget]
  have h_effMin : allocEffMin { minC := 2, globalMaxConc := 50, globalMaxQps := 1/2 }
      false (List.replicate 16 ({ metrics := none, jitter := 1/2 } : WorkerInput))
      = 2 := by decide
  have h_ic : allocIC { minC := 2, globalMaxConc := 50, globalMaxQps := 1/2 }
      false (List.replicate 16 ({ metrics := none, jitter := 1/2 } : WorkerInput))
      = List.replicate 16 3 := by
    unfold allocIC
    rw [h_rawC, h_effMin, List.map_replicate]
    congr 1
    rw [pyIntOfRat_eq (25/8) 3 (by norm_num) (by norm_num)]
    decide
  have h_ic1 : allocIC1 { minC := 2, globalMaxConc := 50, globalMaxQps := 1/2 }
      false (List.replicate 16 ({ metrics := none, jitter := 1/2 } : WorkerInput))
      = List.replicate 16 3 := by
    unfold allocIC1
    rw [h_ic]
    rw [if_neg]
    intro hcon
    simp [List.sum_replicate, totalConcBudget] at hcon
  have h_round : round2 (max (1/10 : ℚ) (1/32)) = 1/10 := by
    rw [max_eq_left (by norm_num)]
    unfold round2 roundHalfEven
    have h10 : ⌊(100 : ℚ) * (1/10)⌋ = 10 := by
      rw [show (100:ℚ) * (1/10) = ((10:ℤ):ℚ) by norm_num]
      exact Int.floor_intCast 10
    rw [h10]
    norm_num
  have h_scale : scaleQps (1/2) (List.replicate 16 ((1:ℚ)/32))
      = List.replicate 16 (1/32) := by
    unfold scaleQps
    rw [if_neg]
    intro hcon
    have := hcon.1
    rw [List.sum_replicate] at this
    norm_num [nsmul_eq_mul] at this
  refine ⟨?_, ?_, by norm_num⟩
  · unfold allocateQuotas
    rw [if_neg (by simp)]
    rw [h_ic1, h_effMin]
    simp only [List.length_replicate]
    have hbud : totalConcBudget
        { minC := 2, globalMaxConc := 50, globalMaxQps := 1/2 } false 16 = 50 := rfl
    have hq : totalQpsBudget
        { minC := 2, globalMaxConc := 50, globalMaxQps := 1/2 } false 16 = 1/2 := rfl
    rw [hbud, hq, h_rawQ, h_scale]
    have hsum : (List.replicate 16 (3:ℕ)).sum = 48 := by
      rw [List.sum_replicate]
      norm_num
    rw [hsum]
    have hgreedy : greedyTrim 50 2 (48 + 1) (List.replicate 16 3)
        = some (List.replicate 16 3) := by decide
    rw [hgreedy]
    dsimp only
    rw [zipWith_replicate_eq]
    rw [h_round]
  · rw [List.map_replicate, List.sum_replicate]
    norm_num [nsmul_eq_mul]

/-- C1 amended: whenever an allocation pass terminates, the
concurrency total is bounded by the cooldown-adjusted concurrency
budget (`global_max_concurrency` outside a cooldown;
`max(n·min_concurrency, global_max_concurrency // 2)` inside one), and
the qps total is bounded by the cooldown-adjusted qps budget plus at
most `0.105` per worker (a `0.1` floor plus up to `0.005` of
2-decimal rounding, both applied per worker after the
budget-preserving rescale). -/
theorem allocateQuotas_bounds (s : AllocSettings) (inCooldown : Bool)
    (workers : List WorkerInput) (quotas : List Quota)
    (hgq : 0 ≤ s.globalMaxQps)
    (hj : ∀ w ∈ workers, 0 ≤ w.jitter)
    (halloc : allocateQuotas s inCooldown workers = some quotas) :
    (quotas.map Quota.concurrency).sum
        ≤ totalConcBudget s inCooldown workers.length ∧
    (quotas.map Quota.qps).sum
        ≤ totalQpsBudget s inCooldown workers.length
          + (21/200) * workers.length := by
  unfold allocateQuotas at halloc
  by_cases hn : workers.length = 0
  · rw [if_pos hn] at halloc
    have hq0 : quotas = [] := by simpa using halloc.symm
    subst hq0
    refine ⟨by simp, ?_⟩
    simp only [List.map_nil, List.sum_nil]
    have h1 := totalQpsBudget_nonneg s inCooldown workers.length hgq
    have h2 : (0:ℚ) ≤ (21/200) * workers.length := by positivity
    linarith
  · rw [if_neg hn] at halloc
    cases hgt : greedyTrim (totalConcBudget s inCooldown workers.length)
        (allocEffMin s inCooldown workers)
        ((allocIC1 s inCooldown workers).sum + 1)
        (allocIC1 s inCooldown workers) with
    | none =>
        rw [hgt] at halloc
        simp at halloc
    | some icF =>
        rw [hgt] at halloc
        dsimp only at halloc
        rw [Option.some.injEq] at halloc
        subst halloc
        have htq := totalQpsBudget_nonneg s inCooldown workers.length hgq
        have hraw := allocRawQps_nonneg s inCooldown workers hgq hj
        constructor
        · calc ((List.zipWith
              (fun c q => ({ concurrency := c, qps := round2 (max (1/10) q) } : Quota))
              icF (scaleQps (totalQpsBudget s inCooldown workers.length)
                (allocRawQps s inCooldown workers))).map Quota.concurrency).sum
              ≤ icF.sum := sum_zip_conc_le _ _
            _ ≤ totalConcBudget s inCooldown workers.length :=
              greedyTrim_sum_le _ _ _ _ _ hgt
        · have hnn := scaleQps_nonneg
            (totalQpsBudget s inCooldown workers.length)
            (allocRawQps s inCooldown workers) htq hraw
          have hzip := sum_zip_qps_le icF
            (scaleQps (totalQpsBudget s inCooldown workers.length)
              (allocRawQps s inCooldown workers)) hnn
          have hsum := scaleQps_sum_le
            (totalQpsBudget s inCooldown workers.length)
            (allocRawQps s inCooldown workers) htq hraw
          have hlen : (scaleQps (totalQpsBudget s inCooldown workers.length)
              (allocRawQps s inCooldown workers)).length = workers.length := by
            rw [scaleQps_length]
            unfold allocRawQps
            rw [List.length_map]
          rw [hlen] at hzip
          linarith

theorem allocateQuotas_bounds_witness :
    allocateQuotas { minC := 2, globalMaxConc := 30, globalMaxQps := 6 } false
        [{ metrics := none, jitter := 1/2 }]
      = some [{ concurrency := 30, qps := 6 }] ∧
    (([{ concurrency := 30, qps := 6 }] : List Quota).map Quota.concurrency).sum
      ≤ totalConcBudget { minC := 2, globalMaxConc := 30, globalMaxQps := 6 }
          false 1 ∧
    (([{ concurrency := 30, qps := 6 }] : List Quota).map Quota.qps).sum
      ≤ totalQpsBudget { minC := 2, globalMaxConc := 30, globalMaxQps := 6 }
          false 1 + (21/200) * 1 := by
  have h_tot : allocTot [({ metrics := none, jitter := 1/2 } : WorkerInput)]
      = 1/2 := by
    unfold allocTot
    simp [workerScore]
  have h_rawC : allocRawConc { minC := 2, globalMaxConc := 30, globalMaxQps := 6 }
      false [({ metrics := none, jitter := 1/2 } : WorkerInput)] = [30] := by
    unfold allocRawConc
    simp only [List.map_cons, List.map_nil, h_tot]
    norm_num [workerScore, jitterFactor, totalConcBudget]
  have h_rawQ : allocRawQps { minC := 2, globalMaxConc := 30, globalMaxQps := 6 }
      false [({ metrics := none, jitter := 1/2 } : WorkerInput)] = [6] := by
    unfold allocRawQps
    simp only [List.map_cons, List.map_nil, h_tot]
    norm_num [workerScore, jitterFactor, totalQpsBudget]
  have h_effMin : allocEffMin { minC := 2, globalMaxConc := 30, globalMaxQps := 6 }
      false [({ metrics := none, jitter := 1/2 } : WorkerInput)] = 2 := by decide
  have h_ic : allocIC { minC := 2, globalMaxConc := 30, globalMaxQps := 6 }
      false [({ metrics := none, jitter := 1/2 } : WorkerInput)] = [30] := by
    unfold allocIC
    rw [h_rawC, h_effMin]
    simp only [List.map_cons, List.map_nil]
    rw [pyIntOfRat_eq 30 30 (by norm_num) (by norm_num)]
    decide
  have h_ic1 : allocIC1 { minC := 2, globalMaxConc := 30, globalMaxQps := 6 }
      false [({ metrics := none, jitter := 1/2 } : WorkerInput)] = [30] := by
    unfold allocIC1
    rw [h_ic]
    rw [if_neg]
    norm_num [totalConcBudget]
  have h_round : round2 (max (1/10 : ℚ) 6) = 6 := by
    rw [max_eq_right (by norm_num)]
    unfold round2 roundHalfEven
    have h600 : ⌊(100 : ℚ) * 6⌋ = 600 := by
      rw [show (100:ℚ) * 6 = ((600:ℤ):ℚ) by norm_num]
      exact Int.floor_intCast 600
    rw [h600]
    norm_num
  have h_scale : scaleQps 6 [(6:ℚ)] = [6] := by
    unfold scaleQps
    rw [if_neg]
    intro hcon
    have := hcon.1
    simp at this
  have halloc : allocateQuotas { minC := 2, globalMaxConc := 30, globalMaxQps := 6 }
      false [{ metrics := none, jitter := 1/2 }]
      = some [{ concurrency := 30, qps := 6 }] := by
    unfold allocateQuotas
    rw [if_neg (by simp)]
    rw [h_ic1, h_effMin]
    simp only [List.length_cons, List.length_nil]
    have hbud : totalConcBudget
        { minC := 2, globalMaxConc := 30, globalMaxQps := 6 } false 1 = 30 := rfl
    have hq : totalQpsBudget
        { minC := 2, globalMaxConc := 30, globalMaxQps := 6 } false 1 = 6 := rfl
    rw [hbud, hq, h_rawQ, h_scale]
    have hgreedy : greedyTrim 30 2 ([(30:ℕ)].sum + 1) [30] = some [30] := by decide
    rw [hgreedy]
    dsimp only
    simp only [List.zipWith_cons_cons, List.zipWith_nil_left]
    rw [h_round]
  refine ⟨halloc, ?_, ?_⟩
  · have h := (allocateQuotas_bounds
      { minC := 2, globalMaxConc := 30, globalMaxQps := 6 } false
      [{ metrics := none, jitter := 1/2 }] [{ concurrency := 30, qps := 6 }]
      (by norm_num)
      (by
        intro w hw
        rcases List.mem_singleton.mp hw with rfl
        norm_num) halloc).1
    exact h
  · have h := (allocateQuotas_bounds
      { minC := 2, globalMaxConc := 30, globalMaxQps := 6 } false
      [{ metrics := none, jitter := 1/2 }] [{ concurrency := 30, qps := 6 }]
      (by norm_num)
      (by
        intro w hw
        rcases List.mem_singleton.mp hw with rfl
        norm_num) halloc).2
    exact h

theorem getD_le_of_forall_le (l : List ℕ) (b : ℕ) (h : ∀ x ∈ l, x ≤ b) :
    ∀ i, l.getD i 0 ≤ b := by
  intro i
  induction l generalizing i with
  | nil => simp [List.getD]
  | cons a t ih =>
      cases i with
      | zero => exact h a (List.mem_cons_self _ _)
      | succ j =>
          simp only [List.getD_cons_succ]
          exact ih (fun x hx => h x (List.mem_cons_of_mem _ hx)) j

theorem trimPass_id_of_all_le (budget effMin : ℕ) (l : List ℕ)
    (h : ∀ i, l.getD i 0 ≤ effMin) : trimPass budget effMin l = l := by
  unfold trimPass
  have hgen : ∀ idxs : List ℕ,
      idxs.foldl (fun acc i =>
        if acc.getD i 0 > effMin ∧ acc.sum > budget then
          acc.set i (acc.getD i 0 - 1)
        else acc) l = l := by
    intro idxs
    induction idxs with
    | nil => rfl
    | cons a t ih =>
        simp only [List.foldl_cons]
        rw [if_neg (fun hc => absurd hc.1 (not_lt.mpr (h a)))]
        exact ih
  exact hgen _

theorem greedyTrim_none_of_stuck (budget effMin : ℕ) (l : List ℕ)
    (hsum : budget < l.sum) (h : ∀ i, l.getD i 0 ≤ effMin) :
    ∀ fuel, greedyTrim budget effMin fuel l = none := by
  intro fuel
  induction fuel with
  | zero => rfl
  | succ n ih =>
      unfold greedyTrim
      rw [if_neg (not_le.mpr hsum), trimPass_id_of_all_le budget effMin l h]
      exact ih

/-- C10: the final greedy trim does NOT terminate on every input.
With 3 active workers (no fresh metrics) and the valid setting
`global_max_concurrency = 2`, every worker is floored at
`effective_min_c = 1`, the sum 3 stays above the budget 2, each pass
of the fallback `while` loop changes nothing, and the loop spins
forever — modelled by the fuelled loop returning `none` for every
fuel, so the allocation pass as a whole never produces quotas. -/
theorem allocateQuotas_greedy_trim_diverges :
    (∀ fuel, greedyTrim 2 1 fuel [1, 1, 1] = none) ∧
    allocateQuotas { minC := 2, globalMaxConc := 2, globalMaxQps := 9/2 }
        false (List.replicate 3 { metrics := none, jitter := 1/2 }) = none := by
  have hstuck : ∀ fuel, greedyTrim 2 1 fuel [1, 1, 1] = none :=
    greedyTrim_none_of_stuck 2 1 [1, 1, 1] (by decide)
      (getD_le_of_forall_le [1, 1, 1] 1 (by decide))
  refine ⟨hstuck, ?_⟩
  have h_tot : allocTot (List.replicate 3
      ({ metrics := none, jitter := 1/2 } : WorkerInput)) = 3/2 := by
    unfold allocTot
    rw [List.map_replicate, List.sum_replicate]
    norm_num [workerScore, nsmul_eq_mul]
  have h_rawC : allocRawConc { minC := 2, globalMaxConc := 2, globalMaxQps := 9/2 }
      false (List.replicate 3 ({ metrics := none, jitter := 1/2 } : WorkerInput))
      = List.replicate 3 (2/3) := by
    unfold allocRawConc
    rw [List.map_replicate]
    congr 1
    rw [h_tot]
    norm_num [workerScore, jitterFactor, totalConcBudget]
  have h_effMin : allocEffMin { minC := 2, globalMaxConc := 2, globalMaxQps := 9/2 }
      false (List.replicate 3 ({ metrics := none, jitter := 1/2 } : WorkerInput))
      = 1 := by decide
  have h_ic : allocIC { minC := 2, globalMaxConc := 2, globalMaxQps := 9/2 }
      false (List.replicate 3 ({ metrics := none, jitter := 1/2 } : WorkerInput))
      = List.replicate 3 1 := by
    unfold allocIC
    rw [h_rawC, h_effMin, List.map_replicate]
    congr 1
    rw [pyIntOfRat_eq (2/3) 0 (by norm_num) (by norm_num)]
    decide
  have h_ic1 : allocIC1 { minC := 2, globalMaxConc := 2, globalMaxQps := 9/2 }
      false (List.replicate 3 ({ metrics := none, jitter := 1/2 } : WorkerInput))
      = List.replicate 3 1 := by
    unfold allocIC1
    rw [h_ic]
    rw [if_pos (by decide)]
    unfold propTrim
    rw [if_neg (by decide)]
  unfold allocateQuotas
  rw [if_neg (by simp)]
  rw [h_ic1, h_effMin]
  simp only [List.length_replicate]
  have hbud : totalConcBudget
      { minC := 2, globalMaxConc := 2, globalMaxQps := 9/2 } false 3 = 2 := rfl
  rw [hbud]
  have hrep : List.replicate 3 (1:ℕ) = [1, 1, 1] := rfl
  rw [hrep, hstuck ([1,1,1].sum + 1)]

theorem applyOld_append (l1 l2 : List (SKey × Val)) (s : Settings) :
    applyOld (l1 ++ l2) s = applyOld l2 (applyOld l1 s) := by
  induction l1 generalizing s with
  | nil => rfl
  | cons p t ih =>
      cases p
      simp only [List.cons_append, applyOld]
      exact ih _

theorem applyOld_congr_at (l : List (SKey × Val)) (s t : Settings) (j : SKey)
    (h : s j = t j) : applyOld l s j = applyOld l t j := by
  induction l generalizing s t with
  | nil => exact h
  | cons p rest ih =>
      cases p with
      | mk k v =>
          simp only [applyOld]
          apply ih
          unfold setVal
          by_cases hj : j = k
       -- both branches of setVal agree
          · rw [if_pos hj, if_pos hj]
          · rw [if_neg hj, if_neg hj]
            exact h

theorem applyOld_apply_ne (l : List (SKey × Val)) (s : Settings) (k : SKey)
    (h : ∀ p ∈ l, p.1 ≠ k) : applyOld l s k = s k := by
  induction l generalizing s with
  | nil => rfl
  | cons p rest ih =>
      cases p with
      | mk k' v =>
          simp only [applyOld]
          rw [ih _ (fun q hq => h q (List.mem_cons_of_mem _ hq))]
          unfold setVal
          rw [if_neg (fun hc => (h (k', v) (List.mem_cons_self _ _)) hc.symm)]

theorem processKey_preserves (pI : String → Option ℤ) (pF : String → Option ℚ)
    (data : SKey → Option Val) (acc : UpdAcc) (k : SKey) (st0 : Settings)
    (hinv : ∀ j, applyOld acc.old acc.st j = st0 j)
    (hk : ∀ p ∈ acc.old, p.1 ≠ k) :
    (∀ j, applyOld (processKey pI pF data acc k).old
        (processKey pI pF data acc k).st j = st0 j) ∧
    (∀ p ∈ (processKey pI pF data acc k).old, p ∈ acc.old ∨ p.1 = k) := by
  unfold processKey
  cases hd : data k with
  | none => exact ⟨hinv, fun p hp => Or.inl hp⟩
  | some v =>
      dsimp only
      by_cases hpe : pyEq v (acc.st k) = true
      · rw [if_pos hpe]
        exact ⟨hinv, fun p hp => Or.inl hp⟩
      · rw [if_neg hpe]
        rcases hsv : sValidator k with ⟨ty, lo, hi⟩
        dsimp only
        cases hcv : convertVal pI pF ty v with
        | none => exact ⟨hinv, fun p hp => Or.inl hp⟩
        | some v' =>
            dsimp only
            by_cases hro : rangeOk v' lo hi = true
            · rw [if_pos hro]
              dsimp only
              constructor
              · intro j
                rw [applyOld_append]
                simp only [applyOld]
                by_cases hj : j = k
                · subst hj
                  unfold setVal
                  rw [if_pos rfl, ← hinv j, applyOld_apply_ne _ _ _ hk]
                · have hset : setVal (applyOld acc.old (setVal acc.st k v')) k
                      (acc.st k) j
                      = applyOld acc.old (setVal acc.st k v') j := by
                    unfold setVal
                    rw [if_neg hj]
                  rw [hset]
                  have hcongr : applyOld acc.old (setVal acc.st k v') j
                      = applyOld acc.old acc.st j := by
                    apply applyOld_congr_at
                    unfold setVal
                    rw [if_neg hj]
                  rw [hcongr]
                  exact hinv j
              · intro p hp
                rcases List.mem_append.mp hp with hmem | hone
                · exact Or.inl hmem
                · right
                  rcases List.mem_singleton.mp hone with rfl
                  rfl
            · rw [if_neg hro]
              exact ⟨hinv, fun p hp => Or.inl hp⟩

theorem fold_rollback (pI : String → Option ℤ) (pF : String → Option ℚ)
    (data : SKey → Option Val) (st0 : Settings) :
    ∀ (keys : List SKey) (acc : UpdAcc),
      keys.Nodup →
      (∀ j, applyOld acc.old acc.st j = st0 j) →
      (∀ p ∈ acc.old, p.1 ∉ keys) →
      ∀ j, applyOld (keys.foldl (processKey pI pF data) acc).old
        (keys.foldl (processKey pI pF data) acc).st j = st0 j := by
  intro keys
  induction keys with
  | nil =>
      intro acc _ hinv _ j
      simpa using hinv j
  | cons k t ih =>
      intro acc hnd hinv hold j
      simp only [List.foldl_cons]
      have hk : ∀ p ∈ acc.old, p.1 ≠ k := by
        intro p hp hc
        exact hold p hp (hc ▸ List.mem_cons_self k t)
      obtain ⟨hinv', hsub⟩ := processKey_preserves pI pF data acc k st0 hinv hk
      apply ih (processKey pI pF data acc k) (List.Nodup.of_cons hnd) hinv'
      intro p hp
      rcases hsub p hp with hmem | hkey
      · intro hc
        exact hold p hmem (List.mem_cons_of_mem _ hc)
      · intro hc
        rw [hkey] at hc
        exact (List.nodup_cons.mp hnd).1 hc

/-- C5: for every settings PUT request and every well-typed
pre-request settings state, if any per-field type/range check or any
cross-field constraint fails (the handler responds with `ok = false`,
a 422), the settings map afterwards equals its pre-request value at
every key and the version is unchanged; on success the version
increases exactly when at least one field was written. -/
theorem updateSettings_rollback_and_version
    (pI : String → Option ℤ) (pF : String → Option ℚ)
    (data : SKey → Option Val) (st0 : Settings) (ver : ℕ)
    (hty : typedOK st0) :
    ((updateSettings pI pF data st0 ver).ok = false →
      (∀ k, (updateSettings pI pF data st0 ver).settings k = st0 k) ∧
      (updateSettings pI pF data st0 ver).version = ver) ∧
    ((updateSettings pI pF data st0 ver).ok = true →
      ((updateSettings pI pF data st0 ver).changed = true →
        (updateSettings pI pF data st0 ver).version = ver + 1) ∧
      ((updateSettings pI pF data st0 ver).changed = false →
        (updateSettings pI pF data st0 ver).version = ver)) := by
  have hroll := fold_rollback pI pF data st0 skeyOrder
    { st := st0, old := [], errs := [], changed := false }
    (by decide) (fun j => rfl) (fun p hp => absurd hp (List.not_mem_nil p))
  unfold updateSettings
  dsimp only
  split_ifs with h1 h2 h3
  · exact ⟨fun _ => ⟨hroll, rfl⟩, fun hok => absurd hok (by simp)⟩
  · exact ⟨fun _ => ⟨hroll, rfl⟩, fun hok => absurd hok (by simp)⟩
  · refine ⟨fun hok => absurd hok (by simp), fun _ => ⟨fun _ => rfl, ?_⟩⟩
    intro hch
    exact absurd hch (by simp [h3])
  · refine ⟨fun hok => absurd hok (by simp), fun _ => ⟨?_, fun _ => rfl⟩⟩
    intro hch
    exact absurd hch (by simp)

theorem updateSettings_rollback_and_version_witness :
    typedOK defaultSettings ∧
    ((updateSettings String.toInt? (fun _ => none) crossBadRequest
        defaultSettings 7).ok = false →
      (∀ k, (updateSettings String.toInt? (fun _ => none) crossBadRequest
          defaultSettings 7).settings k = defaultSettings k) ∧
      (updateSettings String.toInt? (fun _ => none) crossBadRequest
          defaultSettings 7).version = 7) :=
  ⟨fun k => by cases k <;> rfl,
   (updateSettings_rollback_and_version String.toInt? (fun _ => none)
      crossBadRequest defaultSettings 7 (fun k => by cases k <;> rfl)).1⟩

end Scraper
